import Mathlib

/-!
# Verification of the Ali vendor adapter (`controller/relay-ali.go`)

A shallow embedding of the vendor protocol adapter for the Ali (DashScope)
binding: the chat request translator, the unary and streamed chat response
handlers, the embedding response translator and the TTS websocket relay,
together with proofs of the spec's testable properties.

Go strings are modelled as `List Char` (a Go string is a byte sequence; the
adapter only compares, concatenates, and trims them, so any sequence model is
faithful).  Go `int` is modelled as `Int` (no arithmetic here approaches the
64-bit range).  `float64` embedding coordinates are modelled as `ℚ`: the
adapter never computes with them, it only moves them, so any carrier with
decidable equality is faithful.
-/

/-- Go strings as character sequences. -/
abbrev GoString := List Char

/-- Convert a Lean string literal to the `GoString` model. -/
def goStr (s : String) : GoString := s.data

/-- Model of `strings.TrimPrefix(s, pre)`: `s` without the leading `pre` if `s` starts
with `pre`, otherwise `s` unchanged. -/
def trimPrefix (s pre : GoString) : GoString :=
  if pre.isPrefixOf s then s.drop pre.length else s

/-! ## Canonical (OpenAI-side) data model

These shapes are declared elsewhere in the repository (outside the shown
source); they are plain data containers. -/

/-- Modelled from the spec: a canonical chat message
`Message{role ∈ {system,user,assistant}, content}`.  In the repository the
content field can also hold structured parts; the adapter only ever reads it
through `StringContent`, so we model the content as the string that accessor
returns. -/
structure Message where
  Role : GoString
  Content : GoString
  deriving DecidableEq

/-- Modelled from the spec: `StringContent` extracts the textual content of a
canonical message (declared outside the shown source). -/
def Message.StringContent (m : Message) : GoString := m.Content

/-- Modelled from the spec: the canonical chat request — ordered message
sequence plus model identifier (sampling parameters are intentionally not
forwarded by this vendor binding, so they are omitted). -/
structure GeneralOpenAIRequest where
  Model : GoString
  Messages : List Message
  deriving DecidableEq

/-- Modelled from the spec: canonical usage record
`{prompt_tokens, completion_tokens, total_tokens}`. -/
structure Usage where
  PromptTokens : Int
  CompletionTokens : Int
  TotalTokens : Int
  deriving DecidableEq

/-- Modelled from the spec: canonical error body `{message, type, param, code}`. -/
structure OpenAIError where
  Message : GoString
  «Type» : GoString
  Param : GoString
  Code : GoString
  deriving DecidableEq

/-- Modelled from the spec: canonical error plus the HTTP status returned to
the caller. -/
structure OpenAIErrorWithStatusCode where
  error : OpenAIError
  StatusCode : Int
  deriving DecidableEq

/-! ## Vendor (Ali-side) data model, from `relay-ali.go` -/

/-- One paired history turn `{user, bot}` (`AliMessage`). -/
structure AliMessage where
  User : GoString
  Bot : GoString
  deriving DecidableEq

/-- Type `AliInput`: active prompt plus paired history. -/
structure AliInput where
  Prompt : GoString
  History : List AliMessage
  deriving DecidableEq

/-- Type `AliChatRequest` (the `Parameters` field is left at its zero value by the
translator, so it is omitted from the model). -/
structure AliChatRequest where
  Model : GoString
  Input : AliInput
  deriving DecidableEq

/-- Type `AliUsage`: vendor token counts. -/
structure AliUsage where
  InputTokens : Int
  OutputTokens : Int
  TotalTokens : Int
  deriving DecidableEq

/-- Type `AliOutput`: cumulative output text and finish reason. -/
structure AliOutput where
  Text : GoString
  FinishReason : GoString
  deriving DecidableEq

/-- Type `AliChatResponse`.  The Go struct embeds `AliError`; JSON-flattened fields
`Code`, `Message`, `RequestId` are modelled as direct fields. -/
structure AliChatResponse where
  Output : AliOutput
  Usage : AliUsage
  Code : GoString
  Message : GoString
  RequestId : GoString
  deriving DecidableEq

/-! ## Chat request translator (`requestOpenAI2Ali`, lines 141–177)

The Go loop walks the message list with an index `i`:
a `system` message appends `{user: content, bot: "Okay"}` and advances one;
any other message that is last becomes the prompt and the loop breaks;
otherwise it is paired with the (unexamined) next message and the index
advances two.  The recursion below mirrors that walk position by position. -/

/-- The translator's scan loop: returns the accumulated history pairs and the
prompt (initially `""`, set only when a non-system message is last). -/
def aliTranslateLoop : List Message → List AliMessage × GoString
  | [] => ([], [])
  | m :: rest =>
    if m.Role = goStr "system" then
      let r := aliTranslateLoop rest
      (⟨m.StringContent, goStr "Okay"⟩ :: r.1, r.2)
    else
      match rest with
      | [] => ([], m.StringContent)
      | m2 :: rest2 =>
        let r := aliTranslateLoop rest2
        (⟨m.StringContent, m2.StringContent⟩ :: r.1, r.2)

/-- Function `requestOpenAI2Ali`: canonical chat request → vendor chat request. -/
def requestOpenAI2Ali (request : GeneralOpenAIRequest) : AliChatRequest :=
  let r := aliTranslateLoop request.Messages
  { Model := request.Model
    Input := { Prompt := r.2, History := r.1 } }

/-- No message in the list has the `system` role. -/
def noSystem (msgs : List Message) : Prop :=
  ∀ m ∈ msgs, m.Role ≠ goStr "system"

instance (msgs : List Message) : Decidable (noSystem msgs) := by
  unfold noSystem; infer_instance

/-! ## Unary chat response translation (`responseAli2OpenAI`, `aliHandler`) -/

/-- Type `OpenAITextResponseChoice` (declared outside the shown source; shape per
the spec's CanonicalChatResponse). -/
structure OpenAITextResponseChoice where
  Index : Int
  Message : Message
  FinishReason : GoString
  deriving DecidableEq

/-- Modelled from the spec: canonical unary chat response (declared outside
the shown source). -/
structure OpenAITextResponse where
  Id : GoString
  Object : GoString
  Created : Int
  Choices : List OpenAITextResponseChoice
  Usage : Usage
  deriving DecidableEq

/-- Function `responseAli2OpenAI` (lines 260–281).  `common.GetTimestamp()` is passed
in as `now`. -/
def responseAli2OpenAI (now : Int) (response : AliChatResponse) : OpenAITextResponse :=
  let choice : OpenAITextResponseChoice :=
    { Index := 0
      Message := { Role := goStr "assistant", Content := response.Output.Text }
      FinishReason := response.Output.FinishReason }
  { Id := response.RequestId
    Object := goStr "chat.completion"
    Created := now
    Choices := [choice]
    Usage :=
      { PromptTokens := response.Usage.InputTokens
        CompletionTokens := response.Usage.OutputTokens
        TotalTokens := response.Usage.InputTokens + response.Usage.OutputTokens } }

/-- Outcome of the unary handler after the vendor body has been read, closed
and decoded: either a canonical error is returned (and nothing is written to
the client), or the translated success payload is written with the vendor's
status and its usage is returned. -/
inductive AliHandlerOutcome where
  | failure (e : OpenAIErrorWithStatusCode)
  | success (written : OpenAITextResponse) (status : Int) (usage : Usage)
  deriving DecidableEq

/-- Function `aliHandler` (lines 369–403), from the point where the vendor body has
decoded successfully into `resp` (read/close/decode/marshal faults are
transport faults outside this model).  `status` is the vendor's HTTP status. -/
def aliHandler (now status : Int) (resp : AliChatResponse) : AliHandlerOutcome :=
  if resp.Code ≠ goStr "" then
    .failure
      { error :=
          { Message := resp.Message
            «Type» := resp.Code
            Param := resp.RequestId
            Code := resp.Code }
        StatusCode := status }
  else
    let fullTextResponse := responseAli2OpenAI now resp
    .success fullTextResponse status fullTextResponse.Usage

/-! ## Streamed chat translation (`streamResponseAli2OpenAI`, `aliStreamHandler`) -/

/-- The `delta` object of a canonical stream chunk choice. -/
structure StreamDelta where
  Content : GoString
  deriving DecidableEq

/-- Type `ChatCompletionsStreamResponseChoice` (declared outside the shown source):
delta content plus an optional finish reason (`*string` in Go — `nil` models
the absent field). -/
structure ChatCompletionsStreamResponseChoice where
  Delta : StreamDelta
  FinishReason : Option GoString
  deriving DecidableEq

/-- Modelled from the spec: canonical stream chunk (declared outside the shown
source). -/
structure ChatCompletionsStreamResponse where
  Id : GoString
  Object : GoString
  Created : Int
  Model : GoString
  Choices : List ChatCompletionsStreamResponseChoice
  deriving DecidableEq

/-- Function `streamResponseAli2OpenAI` (lines 283–298): the choice starts at its zero
value (`FinishReason` nil) and the pointer is set for any vendor finish reason
other than the literal string `"null"`. -/
def streamResponseAli2OpenAI (now : Int) (aliResponse : AliChatResponse) :
    ChatCompletionsStreamResponse :=
  let choice : ChatCompletionsStreamResponseChoice :=
    { Delta := { Content := aliResponse.Output.Text }
      FinishReason :=
        if aliResponse.Output.FinishReason ≠ goStr "null" then
          some aliResponse.Output.FinishReason
        else none }
  { Id := aliResponse.RequestId
    Object := goStr "chat.completion.chunk"
    Created := now
    Model := goStr "ernie-bot"
    Choices := [choice] }

/-- Line 348: `response.Choices[0].Delta.Content =
strings.TrimPrefix(response.Choices[0].Delta.Content, lastResponseText)`. -/
def updateDelta (resp : ChatCompletionsStreamResponse) (last : GoString) :
    ChatCompletionsStreamResponse :=
  { resp with
    Choices :=
      match resp.Choices with
      | [] => []
      | c :: cs => { c with Delta := { Content := trimPrefix c.Delta.Content last } } :: cs }

/-- Lines 342–346: overwrite the running usage accumulator from a frame whose
`OutputTokens` is non-zero; otherwise leave it unchanged. -/
def streamUsageUpdate (usage : Usage) (r : AliUsage) : Usage :=
  if r.OutputTokens ≠ 0 then
    { PromptTokens := r.InputTokens
      CompletionTokens := r.OutputTokens
      TotalTokens := r.InputTokens + r.OutputTokens }
  else usage

/-- One item rendered onto the client's event stream: a canonical chunk
(`data: <json>`) or the terminal sentinel (`data: [DONE]`). -/
inductive StreamItem where
  | chunk (c : ChatCompletionsStreamResponse)
  | done
  deriving DecidableEq

/-- The consumer loop of `aliStreamHandler` (lines 333–361).  Its input is the
ordered sequence of decode results of the `data:` frames the producer hands
over (`none` = `json.Unmarshal` failed on that frame); the producer's
exhaustion signal is the end of the list.  State: `last` is
`lastResponseText`, `usage` the running accumulator.  Returns the rendered
items and the final usage. -/
def aliStreamLoop (now : Int) :
    List (Option AliChatResponse) → GoString → Usage → List StreamItem × Usage
  | [], _, usage => ([.done], usage)
  | none :: rest, last, usage => aliStreamLoop now rest last usage
  | some r :: rest, last, usage =>
    let usage2 := streamUsageUpdate usage r.Usage
    let response := updateDelta (streamResponseAli2OpenAI now r) last
    let tail := aliStreamLoop now rest r.Output.Text usage2
    (.chunk response :: tail.1, tail.2)

/-- Function `aliStreamHandler` (lines 300–367) after the transport layer: runs the
consumer loop with `lastResponseText = ""` and a zero usage accumulator, and
returns no error (the only error exit of the Go function is a failing
`resp.Body.Close()`, a transport fault outside this model). -/
def aliStreamHandler (now : Int) (frames : List (Option AliChatResponse)) :
    List StreamItem × Usage × Option OpenAIErrorWithStatusCode :=
  let r := aliStreamLoop now frames (goStr "") ⟨0, 0, 0⟩
  (r.1, r.2, none)

/-- The delta contents of the chunks among the rendered items, in order. -/
def chunkDeltas (items : List StreamItem) : List GoString :=
  items.filterMap fun i =>
    match i with
    | .chunk c => some ((c.Choices.headD ⟨⟨[]⟩, none⟩).Delta.Content)
    | .done => none

/-! ## Embedding response translation (`embeddingResponseAli2OpenAI`, lines 242–258) -/

/-- Carrier type for `float64` embedding coordinates (pass-through only). -/
abbrev Float64 := ℚ

/-- Type `AliEmbedding`: one vendor vector with its reported `text_index`. -/
structure AliEmbedding where
  Embedding : List Float64
  TextIndex : Int
  deriving DecidableEq

/-- Type `AliEmbeddingResponse` (embedded `AliError` flattened as in
`AliChatResponse`; only the fields the translator and handler read are
modelled). -/
structure AliEmbeddingResponse where
  Embeddings : List AliEmbedding
  Usage : AliUsage
  Code : GoString
  Message : GoString
  RequestId : GoString
  deriving DecidableEq

/-- Type `OpenAIEmbeddingResponseItem` (declared outside the shown source):
`{object, index, embedding}`. -/
structure OpenAIEmbeddingResponseItem where
  Object : GoString
  Index : Int
  Embedding : List Float64
  deriving DecidableEq

/-- Modelled from the spec: canonical embedding list object (declared outside
the shown source). -/
structure OpenAIEmbeddingResponse where
  Object : GoString
  Data : List OpenAIEmbeddingResponseItem
  Model : GoString
  Usage : Usage
  deriving DecidableEq

/-- Function `embeddingResponseAli2OpenAI`: starts from an empty `Data` list and
appends one item per vendor embedding, in vendor array order, copying the
vendor-reported `TextIndex` into the item's `Index` field. -/
def embeddingResponseAli2OpenAI (response : AliEmbeddingResponse) : OpenAIEmbeddingResponse :=
  let init : OpenAIEmbeddingResponse :=
    { Object := goStr "list"
      Data := []
      Model := goStr "text-embedding-v1"
      Usage := { PromptTokens := 0, CompletionTokens := 0, TotalTokens := response.Usage.TotalTokens } }
  response.Embeddings.foldl
    (fun acc item =>
      { acc with
        Data := acc.Data ++
          [{ Object := goStr "embedding", Index := item.TextIndex, Embedding := item.Embedding }] })
    init

/-! ## TTS relay (`aliTTSHandler`, lines 405–457)

The websocket read loop is modelled on the sequence of frames the socket
delivers before end-of-stream: a text frame carries a decoded
control message, a binary frame carries raw audio bytes. -/

/-- A byte of vendor audio data. -/
abbrev GoByte := Nat

/-- Type `AliWSSMessage`, restricted to the fields the read loop consults: the
header event and the payload's character-count usage. -/
structure AliWSSMessage where
  Event : GoString
  UsageCharacters : Int
  deriving DecidableEq

/-- One websocket frame as delivered to `conn.ReadMessage`. -/
inductive TTSFrame where
  | text (msg : AliWSSMessage)
  | binary (audioData : List GoByte)
  deriving DecidableEq

/-- The chunking loop of the binary branch (lines 442–452): successive slices
`audioData[i : i+1024]` for `i = 0, 1024, 2048, …`. -/
def goChunks (audioData : List GoByte) : List (List GoByte) :=
  match audioData with
  | [] => []
  | a :: rest => ((a :: rest).take 1024) :: goChunks ((a :: rest).drop 1024)
  termination_by audioData.length
  decreasing_by simp [List.length_drop]; omega

/-- Result of the TTS read loop: the byte chunks written to the client (in
order), whether an error was returned, and the usage returned. -/
structure TTSResult where
  writes : List (List GoByte)
  error : Option OpenAIErrorWithStatusCode
  usage : Usage
  deriving DecidableEq

/-- The read loop of `aliTTSHandler` (lines 424–456), over the frames the
socket delivers; the end of the list is the `io.EOF` break.  A text frame
whose event is `"task-finished"` returns immediately with
`usage.TotalTokens = payload.usage.characters`; any other text frame is
ignored; a binary frame is written out in 1024-byte chunks.  `acc` is the
chunks written so far. -/
def ttsLoop : List TTSFrame → List (List GoByte) → TTSResult
  | [], acc => { writes := acc, error := none, usage := ⟨0, 0, 0⟩ }
  | .text msg :: rest, acc =>
    if msg.Event = goStr "task-finished" then
      { writes := acc, error := none, usage := ⟨0, 0, msg.UsageCharacters⟩ }
    else ttsLoop rest acc
  | .binary audioData :: rest, acc => ttsLoop rest (acc ++ goChunks audioData)

/-- Function `aliTTSHandler` from the point where the connection is up and the request
frame has been sent: run the read loop on the delivered frames (write
failures and non-EOF read failures are transport faults outside this model). -/
def aliTTSHandler (frames : List TTSFrame) : TTSResult :=
  ttsLoop frames []

/-! ## Spec-side reference definitions (for the refinement claims) -/

/-- From the spec's words: the vendor cumulative texts form a chain where the
tracker text is a prefix of the first frame's text and each frame's text is a
prefix of the next. -/
def prefixChain : GoString → List GoString → Prop
  | _, [] => True
  | last, s :: rest => last.isPrefixOf s = true ∧ prefixChain s rest

instance : ∀ (last : GoString) (l : List GoString), Decidable (prefixChain last l)
  | _, [] => .isTrue trivial
  | last, s :: rest =>
    have : Decidable (prefixChain s rest) := instDecidablePrefixChain s rest
    inferInstanceAs (Decidable (_ ∧ _))

/-- From the spec's words: the canonical delta sequence — each frame's
cumulative text with the previously emitted cumulative text removed as a
prefix, the tracker updated to the new cumulative text. -/
def specDeltas : GoString → List GoString → List GoString
  | _, [] => []
  | last, s :: rest => trimPrefix s last :: specDeltas s rest

/-! ## Helper lemmas -/

theorem trimPrefix_append (s pre : GoString) (h : pre.isPrefixOf s = true) :
    pre ++ trimPrefix s pre = s := by
  rw [List.isPrefixOf_iff_prefix] at h
  obtain ⟨t, rfl⟩ := h
  simp [trimPrefix, List.isPrefixOf_iff_prefix]

theorem specDeltas_length (last : GoString) (frames : List GoString) :
    (specDeltas last frames).length = frames.length := by
  induction frames generalizing last with
  | nil => rfl
  | cons s rest ih => simp [specDeltas, ih]

theorem specDeltas_join (last : GoString) (frames : List GoString)
    (h : prefixChain last frames) :
    last ++ (specDeltas last frames).join = frames.getLastD last := by
  induction frames generalizing last with
  | nil => simp [specDeltas]
  | cons s rest ih =>
    obtain ⟨hp, hchain⟩ := h
    simp only [specDeltas, List.join_cons, List.getLastD_cons]
    rw [← List.append_assoc, trimPrefix_append s last hp]
    exact ih s hchain

theorem chunkDeltas_cons_chunk (c : ChatCompletionsStreamResponse) (items : List StreamItem) :
    chunkDeltas (.chunk c :: items) =
      (c.Choices.headD ⟨⟨[]⟩, none⟩).Delta.Content :: chunkDeltas items := by
  simp [chunkDeltas]

theorem chunkDeltas_aliStreamLoop (now : Int) (resps : List AliChatResponse)
    (last : GoString) (usage : Usage) :
    chunkDeltas (aliStreamLoop now (resps.map some) last usage).1 =
      specDeltas last (resps.map fun r => r.Output.Text) := by
  induction resps generalizing last usage with
  | nil => rfl
  | cons r rest ih =>
    simp only [List.map_cons, aliStreamLoop, specDeltas]
    rw [chunkDeltas_cons_chunk, ih]
    simp [updateDelta, streamResponseAli2OpenAI]

/-! ## Claim C1 — streamed delta reconstruction -/

/-- C1: For every vendor chat stream whose frames all decode successfully
and whose cumulative output texts form a prefix chain `S1 ⊆ S2 ⊆ … ⊆ Sk`, the
stream handler emits one canonical delta per frame — the frame's cumulative
text with the previously emitted cumulative text removed as a prefix — and
the concatenation of all emitted deltas equals `Sk` exactly. -/
theorem aliStreamHandler_delta_reconstruction (now : Int)
    (resps : List AliChatResponse) (hne : resps ≠ [])
    (hchain : prefixChain (goStr "") (resps.map fun r => r.Output.Text)) :
    chunkDeltas (aliStreamHandler now (resps.map some)).1 =
      specDeltas (goStr "") (resps.map fun r => r.Output.Text) ∧
    (chunkDeltas (aliStreamHandler now (resps.map some)).1).length = resps.length ∧
    (chunkDeltas (aliStreamHandler now (resps.map some)).1).join =
      (resps.getLast hne).Output.Text := by
  have h1 : chunkDeltas (aliStreamHandler now (resps.map some)).1 =
      specDeltas (goStr "") (resps.map fun r => r.Output.Text) :=
    chunkDeltas_aliStreamLoop now resps (goStr "") ⟨0, 0, 0⟩
  refine ⟨h1, ?_, ?_⟩
  · rw [h1, specDeltas_length, List.length_map]
  · rw [h1]
    have hj := specDeltas_join (goStr "") (resps.map fun r => r.Output.Text) hchain
    have hmapne : resps.map (fun r => r.Output.Text) ≠ [] := by simpa using hne
    rw [show goStr "" = ([] : GoString) from rfl] at hj ⊢
    rw [List.nil_append] at hj
    rw [hj, List.getLastD_eq_getLast?, List.getLast?_eq_getLast _ hmapne,
      Option.getD_some, List.getLast_map]

/-- Concrete run of C1 (the spec's Scenario B): cumulative texts
`"Hel"`, `"Hello"`, `"Hello!"` reassemble to `"Hello!"`. -/
def c1Resps : List AliChatResponse :=
  [{ Output := ⟨goStr "Hel", goStr "null"⟩, Usage := ⟨0, 0, 0⟩,
     Code := goStr "", Message := goStr "", RequestId := goStr "" },
   { Output := ⟨goStr "Hello", goStr "null"⟩, Usage := ⟨0, 0, 0⟩,
     Code := goStr "", Message := goStr "", RequestId := goStr "" },
   { Output := ⟨goStr "Hello!", goStr "stop"⟩, Usage := ⟨1, 2, 3⟩,
     Code := goStr "", Message := goStr "", RequestId := goStr "" }]

/-- Witness for C1 at the spec's Scenario B. -/
theorem aliStreamHandler_delta_reconstruction_witness :
    c1Resps ≠ [] ∧
    prefixChain (goStr "") (c1Resps.map fun r => r.Output.Text) ∧
    (chunkDeltas (aliStreamHandler 7 (c1Resps.map some)).1).join = goStr "Hello!" :=
  ⟨by decide, by decide, by
    have h := aliStreamHandler_delta_reconstruction 7 c1Resps (by decide) (by decide)
    exact h.2.2.trans (by decide)⟩

/-! ## Claim C2 — history pairing without system messages -/

theorem bind_pair_getLast? (t : List AliMessage) (p : AliMessage) :
    ((p :: t).flatMap fun q => [q.User, q.Bot]).getLast? =
      some ((t.getLast?.getD p).Bot) := by
  induction t generalizing p with
  | nil => simp
  | cons q u ih =>
    rw [List.flatMap_cons, List.getLast?_append_of_ne_nil _ (by simp [List.flatMap_cons]), ih,
      List.getLast?_cons]
    simp

theorem aliTranslateLoop_noSystem (msgs : List Message) : noSystem msgs →
    (aliTranslateLoop msgs).1.length = msgs.length / 2 ∧
    ((aliTranslateLoop msgs).1.flatMap (fun p => [p.User, p.Bot]) ++
        (if msgs.length % 2 = 1 then [(aliTranslateLoop msgs).2] else []) =
      msgs.map Message.StringContent) := by
  induction msgs using aliTranslateLoop.induct with
  | case1 => intro _; simp [aliTranslateLoop]
  | case2 m rest hsys ih => intro h; exact absurd hsys (h m (by simp))
  | case3 m hns => intro _; simp [aliTranslateLoop, hns]
  | case4 m hns m2 rest2 ih =>
    intro h
    have h2 : noSystem rest2 := fun x hx => h x (by simp [hx])
    obtain ⟨ih1, ih2⟩ := ih h2
    simp only [aliTranslateLoop, if_neg hns]
    constructor
    · simp only [List.length_cons, ih1]; omega
    · have hmod : (rest2.length + 1 + 1) % 2 = rest2.length % 2 := by omega
      simp only [List.flatMap_cons, List.length_cons, hmod, List.map_cons]
      rw [List.append_assoc, ih2]
      rfl

/-- C2 amended: For every message sequence of length `N` containing no
system messages, the chat request translator produces exactly `⌊N/2⌋` history
pairs (equivalently `⌈(N−1)/2⌉`); whenever `N` is odd the prompt equals the
content of the last message; whenever `N` is even the final message is
consumed as the bot half of the last history pair; and no message is
referenced twice (the pairs in order, followed by the prompt when `N` is odd,
list each message's content exactly once). -/
theorem requestOpenAI2Ali_history_pairing (req : GeneralOpenAIRequest)
    (h : noSystem req.Messages) :
    (requestOpenAI2Ali req).Input.History.length = req.Messages.length / 2 ∧
    (req.Messages.length % 2 = 1 →
      (req.Messages.map Message.StringContent).getLast? =
        some (requestOpenAI2Ali req).Input.Prompt) ∧
    (req.Messages.length % 2 = 0 →
      (requestOpenAI2Ali req).Input.History.getLast?.map AliMessage.Bot =
        (req.Messages.map Message.StringContent).getLast?) ∧
    ((requestOpenAI2Ali req).Input.History.flatMap (fun p => [p.User, p.Bot]) ++
        (if req.Messages.length % 2 = 1 then [(requestOpenAI2Ali req).Input.Prompt] else []) =
      req.Messages.map Message.StringContent) := by
  obtain ⟨hlen, hflat⟩ := aliTranslateLoop_noSystem req.Messages h
  have hH : (requestOpenAI2Ali req).Input.History = (aliTranslateLoop req.Messages).1 := rfl
  have hP : (requestOpenAI2Ali req).Input.Prompt = (aliTranslateLoop req.Messages).2 := rfl
  refine ⟨by rw [hH, hlen], ?_, ?_, by rw [hH, hP, hflat]⟩
  · intro hodd
    rw [← hflat, if_pos hodd, hP, List.getLast?_concat]
  · intro heven
    rw [← hflat, if_neg (by omega), List.append_nil, hH]
    cases hcase : (aliTranslateLoop req.Messages).1 with
    | nil => simp
    | cons p t =>
      rw [bind_pair_getLast?, List.getLast?_cons]
      simp

/-- Concrete run of the amended C2: three non-system messages yield one pair,
prompt `"weather?"`, and each message referenced exactly once. -/
def c2AmendedReq : GeneralOpenAIRequest :=
  { Model := goStr "qwen"
    Messages :=
      [{ Role := goStr "user", Content := goStr "hi" },
       { Role := goStr "assistant", Content := goStr "hello" },
       { Role := goStr "user", Content := goStr "weather?" }] }

/-- Witness for the amended C2. -/
theorem requestOpenAI2Ali_history_pairing_witness :
    noSystem c2AmendedReq.Messages ∧
    (requestOpenAI2Ali c2AmendedReq).Input.History.length = 1 ∧
    (requestOpenAI2Ali c2AmendedReq).Input.History.flatMap (fun p => [p.User, p.Bot]) ++
        [(requestOpenAI2Ali c2AmendedReq).Input.Prompt] =
      [goStr "hi", goStr "hello", goStr "weather?"] := by
  have h := requestOpenAI2Ali_history_pairing c2AmendedReq (by decide)
  refine ⟨by decide, h.1.trans (by decide), ?_⟩
  have hflat := h.2.2.2
  rw [if_pos (by decide)] at hflat
  exact hflat.trans (by decide)

/-- Two non-system messages, for the counterexample to C2 as stated. -/
def c2Req : GeneralOpenAIRequest :=
  { Model := goStr "qwen"
    Messages :=
      [{ Role := goStr "user", Content := goStr "a" },
       { Role := goStr "user", Content := goStr "b" }] }

/-- C2 counterexample: A sequence of `N = 2` non-system messages yields
one history pair, not `⌊(N−1)/2⌋ = 0`: the translator pairs the final message
as the bot half, so the claimed pair count is wrong for even `N`. -/
theorem requestOpenAI2Ali_history_pairing_counterexample :
    noSystem c2Req.Messages ∧
    c2Req.Messages.length = 2 ∧
    (requestOpenAI2Ali c2Req).Input.History.length = 1 ∧
    (requestOpenAI2Ali c2Req).Input.History.length ≠ (c2Req.Messages.length - 1) / 2 := by
  exact ⟨by decide, by decide, by decide, by decide⟩

/-! ## Claim C4 — system message priming -/

/-- C4 amended: Every system message examined at the translator's scan
position (i.e. not already consumed as the bot half of the preceding pair) is
converted into a history pair whose user text is the system content and whose
bot text is the fixed acknowledgment string `"Okay"`, and this conversion
consumes no second input message: the remaining messages are translated
exactly as they would be on their own. -/
theorem aliTranslateLoop_system_priming (m : Message) (rest : List Message)
    (h : m.Role = goStr "system") :
    aliTranslateLoop (m :: rest) =
      (⟨m.StringContent, goStr "Okay"⟩ :: (aliTranslateLoop rest).1,
        (aliTranslateLoop rest).2) := by
  cases rest with
  | nil => simp [aliTranslateLoop, h]
  | cons m2 rest2 => simp [aliTranslateLoop, h]

/-- Witness for the amended C4: a leading system message becomes
`{user: "be terse", bot: "Okay"}` and its successor is still the prompt. -/
theorem aliTranslateLoop_system_priming_witness :
    (⟨goStr "system", goStr "be terse"⟩ : Message).Role = goStr "system" ∧
    aliTranslateLoop
        [⟨goStr "system", goStr "be terse"⟩, ⟨goStr "user", goStr "hi"⟩] =
      ([⟨goStr "be terse", goStr "Okay"⟩], goStr "hi") := by
  refine ⟨rfl, ?_⟩
  have h := aliTranslateLoop_system_priming ⟨goStr "system", goStr "be terse"⟩
    [⟨goStr "user", goStr "hi"⟩] rfl
  exact h.trans (by decide)

/-- A system message sitting right after a paired non-system message, for the
counterexample to C4 as stated. -/
def c4Req : GeneralOpenAIRequest :=
  { Model := goStr "qwen"
    Messages :=
      [{ Role := goStr "user", Content := goStr "a" },
       { Role := goStr "system", Content := goStr "s" },
       { Role := goStr "user", Content := goStr "q" }] }

/-- C4 counterexample: The system message at position 1 is consumed as
the bot half of the pair formed at position 0 — its role is never examined —
so no history pair `{user: "s", bot: "Okay"}` is produced, refuting the
claim that every system message, at whatever position, is converted into an
acknowledged pair. -/
theorem aliTranslateLoop_system_priming_counterexample :
    (requestOpenAI2Ali c4Req).Input.History = [⟨goStr "a", goStr "s"⟩] ∧
    (⟨goStr "s", goStr "Okay"⟩ : AliMessage) ∉ (requestOpenAI2Ali c4Req).Input.History := by
  exact ⟨by decide, by decide⟩

/-! ## Claim C3 — embedding index handling -/

theorem embedding_foldl_data (l : List AliEmbedding) (acc : OpenAIEmbeddingResponse) :
    (l.foldl
      (fun acc item =>
        { acc with
          Data := acc.Data ++
            [{ Object := goStr "embedding", Index := item.TextIndex,
               Embedding := item.Embedding }] })
      acc).Data =
    acc.Data ++
      l.map (fun item =>
        { Object := goStr "embedding", Index := item.TextIndex,
          Embedding := item.Embedding }) := by
  induction l generalizing acc with
  | nil => simp
  | cons e t ih => simp [List.foldl_cons, ih]

/-- C3 amended: The canonical embedding list preserves the vendor's
array order and copies each vendor-reported `text_index` into the item's
`index` field: position in the list is the vendor array position, not the
reported index. -/
theorem embeddingResponseAli2OpenAI_index_passthrough (response : AliEmbeddingResponse) :
    (embeddingResponseAli2OpenAI response).Data =
      response.Embeddings.map (fun item =>
        { Object := goStr "embedding", Index := item.TextIndex,
          Embedding := item.Embedding }) := by
  unfold embeddingResponseAli2OpenAI
  rw [embedding_foldl_data]
  rfl

/-- The claim's own example input: vendor array
`[{embedding:[.1,.2], text_index:1}, {embedding:[.9], text_index:0}]`. -/
def c3Resp : AliEmbeddingResponse :=
  { Embeddings :=
      [{ Embedding := [1/10, 2/10], TextIndex := 1 },
       { Embedding := [9/10], TextIndex := 0 }]
    Usage := ⟨0, 0, 0⟩
    Code := goStr ""
    Message := goStr ""
    RequestId := goStr "" }

/-- C3 counterexample: On the claim's example reply, position 0 of the
canonical list holds the vector `[.1,.2]` (tagged with index 1), not the
vector `[.9]`: the translator does not physically reorder the array, so the
canonical list does not place each vector at its `text_index`. -/
theorem embeddingResponseAli2OpenAI_counterexample :
    ((embeddingResponseAli2OpenAI c3Resp).Data.getD 0 ⟨[], 0, []⟩).Embedding =
      [1/10, 2/10] ∧
    ((embeddingResponseAli2OpenAI c3Resp).Data.getD 0 ⟨[], 0, []⟩).Embedding ≠
      [9/10] ∧
    ((embeddingResponseAli2OpenAI c3Resp).Data.getD 0 ⟨[], 0, []⟩).Index = 1 := by
  refine ⟨?_, ?_, ?_⟩ <;> norm_num [embeddingResponseAli2OpenAI, c3Resp, List.foldl_cons]

/-! ## Claim C5 — unary vendor-reported error -/

/-- C5: For every unary chat vendor reply that decodes with a non-empty
error code, the unary handler returns a canonical error carrying the vendor's
message, its code as both type and code, its request id as param, and the
original HTTP status — and writes no success payload to the client (the
outcome is `failure`, whose only payload is the error). -/
theorem aliHandler_vendor_error (now status : Int) (resp : AliChatResponse)
    (h : resp.Code ≠ goStr "") :
    aliHandler now status resp =
      .failure
        { error :=
            { Message := resp.Message
              «Type» := resp.Code
              Param := resp.RequestId
              Code := resp.Code }
          StatusCode := status } := by
  simp [aliHandler, h]

/-- The spec's Scenario D reply: error code `"InvalidParameter"`, HTTP 400. -/
def c5Resp : AliChatResponse :=
  { Output := ⟨goStr "", goStr ""⟩
    Usage := ⟨0, 0, 0⟩
    Code := goStr "InvalidParameter"
    Message := goStr "bad parameter"
    RequestId := goStr "req-1" }

/-- Witness for C5 at the spec's Scenario D. -/
theorem aliHandler_vendor_error_witness :
    c5Resp.Code ≠ goStr "" ∧
    aliHandler 0 400 c5Resp =
      .failure
        { error :=
            { Message := goStr "bad parameter"
              «Type» := goStr "InvalidParameter"
              Param := goStr "req-1"
              Code := goStr "InvalidParameter" }
          StatusCode := 400 } :=
  ⟨by decide, (aliHandler_vendor_error 0 400 c5Resp (by decide)).trans (by decide)⟩

/-! ## Claim C6 — bad frames are skipped, exhaustion terminates cleanly -/

/-- C6: In the streamed chat handler, a frame whose JSON payload fails to
decode is skipped without aborting the stream — the loop's result on
`badFrame :: rest` is exactly its result on `rest`, so all later frames are
still processed — and when the producer signals exhaustion the handler emits
the terminal `data: [DONE]` frame, stops the loop, and returns the
accumulated usage; the handler's error result is `none`. -/
theorem aliStreamHandler_skip_and_terminate (now : Int)
    (rest frames : List (Option AliChatResponse)) (last : GoString) (usage : Usage) :
    aliStreamLoop now (none :: rest) last usage = aliStreamLoop now rest last usage ∧
    aliStreamLoop now [] last usage = ([.done], usage) ∧
    (aliStreamHandler now frames).2.2 = none :=
  ⟨rfl, rfl, rfl⟩

/-! ## Claim C7 — usage accumulator overwrite -/

/-- C7: During a streamed chat call, a successfully decoded frame whose
usage fields are non-zero overwrites the running usage accumulator with its
input tokens, output tokens, and their sum as total (the frame's own
`total_tokens` is ignored); a frame whose usage fields are zero leaves the
accumulator unchanged.  The third conjunct shows the loop threads exactly
this update into the rest of the stream. -/
theorem streamUsageUpdate_overwrite (now : Int) (usage : Usage) (r : AliUsage)
    (a : AliChatResponse) (rest : List (Option AliChatResponse)) (last : GoString) :
    (r.InputTokens ≠ 0 ∧ r.OutputTokens ≠ 0 →
      streamUsageUpdate usage r =
        { PromptTokens := r.InputTokens
          CompletionTokens := r.OutputTokens
          TotalTokens := r.InputTokens + r.OutputTokens }) ∧
    (r.InputTokens = 0 ∧ r.OutputTokens = 0 → streamUsageUpdate usage r = usage) ∧
    (aliStreamLoop now (some a :: rest) last usage).2 =
      (aliStreamLoop now rest a.Output.Text (streamUsageUpdate usage a.Usage)).2 := by
  refine ⟨?_, ?_, rfl⟩
  · rintro ⟨-, ho⟩
    simp [streamUsageUpdate, ho]
  · rintro ⟨-, ho⟩
    simp [streamUsageUpdate, ho]

/-- Witness for C7: a terminal frame's non-zero usage overwrites the
accumulator (total recomputed as `5 + 7`, the frame's own total `999`
discarded); an all-zero usage leaves it untouched. -/
theorem streamUsageUpdate_overwrite_witness :
    streamUsageUpdate ⟨1, 2, 3⟩ ⟨5, 7, 999⟩ = ⟨5, 7, 12⟩ ∧
    streamUsageUpdate ⟨1, 2, 3⟩ ⟨0, 0, 0⟩ = ⟨1, 2, 3⟩ :=
  ⟨((streamUsageUpdate_overwrite 0 ⟨1, 2, 3⟩ ⟨5, 7, 999⟩
      ⟨⟨[], []⟩, ⟨0, 0, 0⟩, [], [], []⟩ [] []).1 (by decide)).trans (by decide),
   (streamUsageUpdate_overwrite 0 ⟨1, 2, 3⟩ ⟨0, 0, 0⟩
      ⟨⟨[], []⟩, ⟨0, 0, 0⟩, [], [], []⟩ [] []).2.1 (by decide)⟩

/-! ## Claim C10 — finish_reason mapping in the streamed chunk translator -/

/-- C10: In the streamed chunk translator, only the literal vendor
finish_reason value `"null"` leaves the canonical chunk's finish_reason
unset; any other value — including the empty string of a frame that omits
the field — is carried through as a set (present) finish_reason, so a frame
without a finish reason yields a chunk whose finish_reason is present and
empty rather than absent. -/
theorem streamResponseAli2OpenAI_finishReason (now : Int) (resp : AliChatResponse) :
    ((streamResponseAli2OpenAI now resp).Choices.headD ⟨⟨[]⟩, none⟩).FinishReason =
      (if resp.Output.FinishReason = goStr "null" then none
       else some resp.Output.FinishReason) := by
  by_cases h : resp.Output.FinishReason = goStr "null" <;>
    simp [streamResponseAli2OpenAI, h]

/-! ## Claim C8 — TTS binary byte fidelity -/

theorem goChunks_join (l : List GoByte) : (goChunks l).join = l := by
  induction l using goChunks.induct with
  | case1 => rw [goChunks]; rfl
  | case2 a rest ih =>
    rw [goChunks]
    simp only [List.join_cons, ih, List.take_append_drop]

theorem goChunks_length_le (l : List GoByte) : ∀ c ∈ goChunks l, c.length ≤ 1024 := by
  induction l using goChunks.induct with
  | case1 => simp [goChunks]
  | case2 a rest ih =>
    rw [goChunks]
    intro c hc
    rcases List.mem_cons.mp hc with h | h
    · subst h
      exact List.length_take_le 1024 (a :: rest)
    · exact ih c h

theorem ttsLoop_binary (datas : List (List GoByte)) (acc : List (List GoByte)) :
    ttsLoop (datas.map TTSFrame.binary) acc =
      { writes := acc ++ datas.flatMap goChunks, error := none, usage := ⟨0, 0, 0⟩ } := by
  induction datas generalizing acc with
  | nil => simp [ttsLoop]
  | cons d rest ih =>
    simp only [List.map_cons, ttsLoop, ih, List.flatMap_cons, List.append_assoc]

/-- C8: For every sequence of binary frames received by the TTS relay,
the chunks written to the client are exactly each frame's bytes split, in
order, into successive chunks of at most 1024 bytes, and the total bytes
written equal the concatenation of all the frames' bytes — no byte is
duplicated, dropped or transformed across chunk boundaries. -/
theorem aliTTSHandler_byte_fidelity (datas : List (List GoByte)) :
    (aliTTSHandler (datas.map TTSFrame.binary)).writes = datas.flatMap goChunks ∧
    (aliTTSHandler (datas.map TTSFrame.binary)).writes.join = datas.join ∧
    ∀ c ∈ (aliTTSHandler (datas.map TTSFrame.binary)).writes, c.length ≤ 1024 := by
  have hw : (aliTTSHandler (datas.map TTSFrame.binary)).writes = datas.flatMap goChunks := by
    unfold aliTTSHandler
    rw [ttsLoop_binary]
    rfl
  refine ⟨hw, ?_, ?_⟩
  · rw [hw]
    clear hw
    induction datas with
    | nil => rfl
    | cons d rest ih => simp [List.flatMap_cons, goChunks_join, ih]
  · rw [hw]
    intro c hc
    obtain ⟨d, -, hcd⟩ := List.mem_flatMap.mp hc
    exact goChunks_length_le d c hcd

/-- Witness for C8: two binary frames of three total bytes pass through
unchanged, in chunks no longer than 1024 bytes. -/
theorem aliTTSHandler_byte_fidelity_witness :
    ([1, 2] : List GoByte) ∈ (aliTTSHandler ([[1, 2], [3]].map TTSFrame.binary)).writes ∧
    ([1, 2] : List GoByte).length ≤ 1024 ∧
    (aliTTSHandler ([[1, 2], [3]].map TTSFrame.binary)).writes.join = [1, 2, 3] := by
  have e2 : goChunks [1, 2] = [[1, 2]] := by
    rw [goChunks, List.take_of_length_le (by norm_num),
      List.drop_eq_nil_of_le (by norm_num), goChunks]
  have e3 : goChunks [3] = [[3]] := by
    rw [goChunks, List.take_of_length_le (by norm_num),
      List.drop_eq_nil_of_le (by norm_num), goChunks]
  have h := aliTTSHandler_byte_fidelity [[1, 2], [3]]
  have hmem : ([1, 2] : List GoByte) ∈ (aliTTSHandler ([[1, 2], [3]].map TTSFrame.binary)).writes := by
    rw [h.1]
    simp [List.flatMap_cons, e2, e3]
  exact ⟨hmem, h.2.2 [1, 2] hmem, h.2.1.trans (by decide)⟩

/-! ## Claim C9 — TTS completion and exit paths -/

/-- C9 amended: Upon receiving a control (text) frame whose event field
signals completion (`"task-finished"`), the TTS relay returns success
immediately — later frames are not processed — with `total_tokens` equal to
that frame's character-count usage field; however this is not the only
successful exit path: end-of-stream without a completion frame also returns
success, with zero usage. -/
theorem ttsLoop_completion (msg : AliWSSMessage) (rest : List TTSFrame)
    (acc : List (List GoByte)) (h : msg.Event = goStr "task-finished") :
    ttsLoop (.text msg :: rest) acc =
      { writes := acc, error := none, usage := ⟨0, 0, msg.UsageCharacters⟩ } ∧
    ttsLoop [] acc = { writes := acc, error := none, usage := ⟨0, 0, 0⟩ } := by
  exact ⟨by simp [ttsLoop, h], rfl⟩

/-- Witness for the amended C9: a completion frame reporting 42 characters
returns success with `total_tokens = 42`, ignoring the frame that follows. -/
theorem ttsLoop_completion_witness :
    (⟨goStr "task-finished", 42⟩ : AliWSSMessage).Event = goStr "task-finished" ∧
    ttsLoop [.text ⟨goStr "task-finished", 42⟩, .binary [1]] [] =
      { writes := [], error := none, usage := ⟨0, 0, 42⟩ } :=
  ⟨rfl, (ttsLoop_completion ⟨goStr "task-finished", 42⟩ [.binary [1]] [] rfl).1⟩

/-- C9 counterexample: A stream that ends (`io.EOF`) after one binary
frame, with no completion control frame ever received, still makes the relay
return success (`error = none`, zero usage): receipt of a completion frame is
not the only successful exit path of the call. -/
theorem aliTTSHandler_eof_success_counterexample :
    (aliTTSHandler [.binary [5]]).error = none ∧
    (aliTTSHandler [.binary [5]]).usage = ⟨0, 0, 0⟩ := by
  exact ⟨rfl, rfl⟩
